import Mathlib

/-!
Verification of the pure core of the DDC-CI monitor control tool
(`main.go`): a shallow embedding of its checksum and frame construction,
hex parsing, reply parsing, EDID name extraction, configuration matching,
feature resolution and preset sequencing, with theorems settling the
specification's claims. Bytes are modelled as `Nat` values below 256 and
byte buffers as `List Nat`.
-/

namespace DellMonitor

/-- Embedding of `getChecksum` (main.go 47–53): XOR-fold of the data bytes
starting from the seed `0x6E`. -/
def getChecksum (data : List Nat) : Nat :=
  data.foldl (fun c b => c ^^^ b) 0x6E

/-- Embedding of the SET-frame construction inside `setVCP` (main.go 84–85):
`data = [0x51, 0x84, 0x03, vcp, byte(value >> 8), byte(value & 0xFF)]`,
then the checksum of `data` is appended. `byte(value >> 8)` on a `uint16`
is `value / 256 % 256` and `byte(value & 0xFF)` is `value % 256`. -/
def encodeSet (vcp value : Nat) : List Nat :=
  let data := [0x51, 0x84, 0x03, vcp, value / 256 % 256, value % 256]
  data ++ [getChecksum data]

/-! ### XOR-fold lemmas for the checksum -/

theorem xor_left_comm (a b c : Nat) : a ^^^ (b ^^^ c) = b ^^^ (a ^^^ c) := by
  rw [← Nat.xor_assoc, Nat.xor_comm a b, Nat.xor_assoc]

theorem foldl_xor_seed (l : List Nat) :
    ∀ a b : Nat, l.foldl (fun c x => c ^^^ x) (a ^^^ b)
      = a ^^^ l.foldl (fun c x => c ^^^ x) b := by
  induction l with
  | nil => intro a b; rfl
  | cons x l ih =>
      intro a b
      simp only [List.foldl_cons]
      rw [Nat.xor_assoc]
      exact ih a (b ^^^ x)

theorem foldl_xor_expand (l : List Nat) (s : Nat) :
    l.foldl (fun c x => c ^^^ x) s = s ^^^ l.foldl (fun c x => c ^^^ x) 0 := by
  have h : s = s ^^^ 0 := (Nat.xor_zero s).symm
  rw [h, foldl_xor_seed l s 0, Nat.xor_zero]

theorem foldl_xor_set (l : List Nat) :
    ∀ (i : Nat) (b a : Nat) (h : i < l.length),
      (l.set i b).foldl (fun c x => c ^^^ x) a
        = l.foldl (fun c x => c ^^^ x) a ^^^ (l.get ⟨i, h⟩ ^^^ b) := by
  induction l with
  | nil => intro i b a h; exact absurd h (Nat.not_lt_zero i)
  | cons x l ih =>
      intro i b a h
      cases i with
      | zero =>
          simp only [List.set, List.foldl_cons, List.get]
          rw [foldl_xor_seed l a b, foldl_xor_seed l a x,
            foldl_xor_expand l b, foldl_xor_expand l x]
          simp only [Nat.xor_assoc, Nat.xor_comm, xor_left_comm, Nat.xor_self,
            Nat.xor_zero, Nat.zero_xor]
          rw [Nat.xor_cancel_left]
      | succ i =>
          simp only [List.set, List.foldl_cons, List.get]
          exact ih i b (a ^^^ x) (Nat.lt_of_succ_lt_succ h)

/-- **C5.** The encoded SET frame is exactly
`[0x51, 0x84, 0x03, vcp, hi(value), lo(value), checksum]`, where the
checksum XOR-folds the six preceding bytes starting from the seed `0x6E`;
in particular `encodeSet 0x60 0x0F11` is
`[0x51, 0x84, 0x03, 0x60, 0x0F, 0x11, 0xC6]`. -/
theorem encodeSet_frame :
    (∀ vcp value : Nat,
        encodeSet vcp value =
          [0x51, 0x84, 0x03, vcp, value / 256 % 256, value % 256,
            0x6E ^^^ 0x51 ^^^ 0x84 ^^^ 0x03 ^^^ vcp
              ^^^ (value / 256 % 256) ^^^ (value % 256)])
      ∧ encodeSet 0x60 0x0F11 = [0x51, 0x84, 0x03, 0x60, 0x0F, 0x11, 0xC6]
      ∧ getChecksum [0x51, 0x84, 0x03, 0x60, 0x0F, 0x11] = 0xC6 := by
  refine ⟨fun vcp value => rfl, by decide, by decide⟩

/-- **C8.** The checksum is a pure function of the bytes (computing it twice
gives the same result), and replacing any single byte of the payload with a
different byte changes the checksum. -/
theorem getChecksum_detects (l : List Nat) (i : Nat) (b : Nat)
    (h : i < l.length) (hne : b ≠ l.get ⟨i, h⟩) :
    getChecksum l = getChecksum l ∧ getChecksum (l.set i b) ≠ getChecksum l := by
  refine ⟨rfl, ?_⟩
  unfold getChecksum
  rw [foldl_xor_set l i b 0x6E h]
  intro heq
  have h0 : l.foldl (fun c x => c ^^^ x) 0x6E ^^^ (l.get ⟨i, h⟩ ^^^ b)
      = l.foldl (fun c x => c ^^^ x) 0x6E ^^^ 0 := by
    rw [Nat.xor_zero]; exact heq
  have := Nat.xor_right_inj.mp h0
  exact hne (Nat.xor_eq_zero.mp this).symm

/-- Witness for C8 at the payload `[1, 2, 3]`, position 1, new byte 5. -/
theorem getChecksum_detects_w :
    getChecksum [1, 2, 3] = getChecksum [1, 2, 3]
      ∧ getChecksum ([1, 2, 3].set 1 5) ≠ getChecksum [1, 2, 3] :=
  getChecksum_detects [1, 2, 3] 1 5 (by decide) (by decide)

/-! ### Hex parsing (`parseHex`, `parseHex16`, main.go 55–71) -/

/-- Numeric value of one hexadecimal digit, as the `%x` scanning verb of
Go's `fmt` package accepts it (both letter cases). -/
def hexVal? (c : Char) : Option Nat :=
  if '0' ≤ c ∧ c ≤ '9' then some (c.toNat - '0'.toNat)
  else if 'a' ≤ c ∧ c ≤ 'f' then some (c.toNat - 'a'.toNat + 10)
  else if 'A' ≤ c ∧ c ≤ 'F' then some (c.toNat - 'A'.toNat + 10)
  else none

/-- Embedding of `fmt.Sscanf(s, "%x", &v)` into an unsigned integer with
exclusive upper bound `bound`: scans the longest leading run of hex digits;
it fails — leaving the scan target unchanged — when there is no leading
digit or the scanned value overflows the target's range. -/
def scanHex (s : List Char) (bound : Nat) : Option Nat :=
  let digits := s.takeWhile (fun c => (hexVal? c).isSome)
  if digits = [] then none
  else
    let v := digits.foldl (fun a c => a * 16 + (hexVal? c).getD 0) 0
    if v < bound then some v else none

/-- Embedding of `fmt.Sscanf(s, "0x%x", &v)`: the literal prefix `0x` must
match, then hex digits are scanned. -/
def scanHexPrefixed (s : List Char) (bound : Nat) : Option Nat :=
  match s with
  | '0' :: 'x' :: rest => scanHex rest bound
  | _ => none

/-- Embedding of `parseHex` (main.go 55–62): scan with format `0x%x` into a
byte (initially 0); if the result is zero, scan again with format `%x`.
Scan errors are discarded — there is no error channel — so a failed scan
leaves the running value at 0 and 0 is returned. -/
def parseHex (s : List Char) : Nat :=
  let b := (scanHexPrefixed s 256).getD 0
  if b = 0 then (scanHex s 256).getD 0 else b

/-- Embedding of `parseHex16` (main.go 64–71): same shape as `parseHex`,
into a `uint16`. -/
def parseHex16 (s : List Char) : Nat :=
  let v := (scanHexPrefixed s 65536).getD 0
  if v = 0 then (scanHex s 65536).getD 0 else v

/-- **C3 (code bug).** `parseHex`/`parseHex16` have no error channel at all:
the malformed strings "invalid" and "zz" yield 0, exactly the result of the
genuine zero inputs "0x00" and "0000" — zero is the parse-failure sentinel
the claim (and `main_test.go`, which expects a `(value, error)` pair and an
error for "invalid") rules out. The well-formed test vectors do parse to
their values. -/
theorem parseHex_zero_sentinel :
    parseHex "invalid".data = 0 ∧ parseHex "zz".data = 0
      ∧ parseHex "0x00".data = 0 ∧ parseHex16 "invalid".data = 0
      ∧ parseHex16 "0000".data = 0
      ∧ parseHex "0x10".data = 0x10 ∧ parseHex "10".data = 0x10
      ∧ parseHex "0xFF".data = 0xFF ∧ parseHex16 "0x0F0F".data = 0x0F0F
      ∧ parseHex16 "0f0f".data = 0x0F0F := by
  decide

/-! ### Configuration data model (main.go 21–37) -/

/-- Embedding of `FeatureConfig` (main.go 21–24); Go maps become
association lists with unique keys. -/
structure FeatureConfig where
  VCP : String
  Values : List (String × String)
deriving Repr, DecidableEq

/-- Embedding of `MonitorConfig` (main.go 26–31). -/
structure MonitorConfig where
  Model : String
  Match : String
  Features : List (String × FeatureConfig)
  Presets : List (String × List (String × String))
deriving Repr, DecidableEq

/-- Embedding of `Device` (main.go 33–37); the bound config is optional. -/
structure Device where
  Bus : String
  Name : String
  Config : Option MonitorConfig
deriving Repr, DecidableEq

/-- Embedding of `strings.ToLower` for the ASCII labels the tool handles:
lowercase every character. (Defined over the character list so that it
evaluates inside the kernel.) -/
def toLower (s : String) : String :=
  ⟨s.data.map Char.toLower⟩

/-- Embedding of `strings.ToUpper`, likewise character-wise. -/
def toUpper (s : String) : String :=
  ⟨s.data.map Char.toUpper⟩

instance {ε α : Type} [DecidableEq ε] [DecidableEq α] :
    DecidableEq (Except ε α)
  | .error a, .error b =>
      if h : a = b then .isTrue (by rw [h])
      else .isFalse (by intro hc; cases hc; exact h rfl)
  | .error _, .ok _ => .isFalse (by intro hc; cases hc)
  | .ok _, .error _ => .isFalse (by intro hc; cases hc)
  | .ok a, .ok b =>
      if h : a = b then .isTrue (by rw [h])
      else .isFalse (by intro hc; cases hc; exact h rfl)

/-- The two configuration-resolution errors `applyFeature` can produce
(main.go 238–244); the unknown-value error carries the feature's value
table, which the message prints with `%v`. -/
inductive ApplyError where
  | unknownFeature : String → ApplyError
  | unknownValue : String → String → List (String × String) → ApplyError
deriving Repr, DecidableEq

/-- Embedding of the resolution part of `applyFeature` (main.go 233–246):
look the feature up by name, then look the supplied value label up after
`strings.ToLower`; on success the `(vcp, value)` hex-string pair handed to
`setVCP` is returned. -/
def applyFeature (config : MonitorConfig) (featureName valueLabel : String) :
    Except ApplyError (String × String) :=
  match config.Features.lookup featureName with
  | none => .error (.unknownFeature featureName)
  | some feat =>
    match feat.Values.lookup (toLower valueLabel) with
    | none => .error (.unknownValue valueLabel featureName feat.Values)
    | some valStr => .ok (feat.VCP, valStr)

/-- A config whose `input_source` feature stores its value label in upper
case. -/
def cfgUpperLabel : MonitorConfig :=
  ⟨"Dell U4021QW", "U4021QW",
    [("input_source", ⟨"0x60", [("HDMI1", "0x11")]⟩)], []⟩

/-- A config whose `input_source` feature stores its value label in lower
case. -/
def cfgLowerLabel : MonitorConfig :=
  ⟨"Dell U4021QW", "U4021QW",
    [("input_source", ⟨"0x60", [("hdmi1", "0x11"), ("dp", "0x0f")]⟩)], []⟩

/-- **C6 (counterexample).** The lookup is not case-insensitive among the
stored value labels: with the label stored as "HDMI1", resolving the very
same string "HDMI1" fails with an unknown-value error, because the code
lowercases the query before an exact lookup against the stored key. -/
theorem applyFeature_upper_label_fails :
    applyFeature cfgUpperLabel "input_source" "HDMI1"
      = .error (.unknownValue "HDMI1" "input_source" [("HDMI1", "0x11")]) := by
  decide

/-- **C6 (amended).** Resolution fails with `unknownFeature` when the
feature name is absent; otherwise the supplied label is lowercased and must
match a stored label exactly — so any two supplied labels differing only in
letter case resolve identically, while stored labels are reachable only if
lower-case — and when nothing matches it fails with an `unknownValue`
error carrying the feature's value table. -/
theorem applyFeature_resolution (config : MonitorConfig)
    (featureName valueLabel : String) :
    (config.Features.lookup featureName = none →
      applyFeature config featureName valueLabel
        = .error (.unknownFeature featureName))
    ∧ (∀ feat, config.Features.lookup featureName = some feat →
        (feat.Values.lookup (toLower valueLabel) = none →
          applyFeature config featureName valueLabel
            = .error (.unknownValue valueLabel featureName feat.Values))
        ∧ (∀ v, feat.Values.lookup (toLower valueLabel) = some v →
            applyFeature config featureName valueLabel = .ok (feat.VCP, v)))
    ∧ (∀ other : String, toLower valueLabel = toLower other →
        (applyFeature config featureName valueLabel).toOption
          = (applyFeature config featureName other).toOption) := by
  refine ⟨?_, ?_, ?_⟩
  · intro h
    simp [applyFeature, h]
  · intro feat hf
    constructor
    · intro hv
      simp [applyFeature, hf, hv]
    · intro v hv
      simp [applyFeature, hf, hv]
  · intro other h
    unfold applyFeature
    rw [h]
    cases config.Features.lookup featureName with
    | none => rfl
    | some feat =>
        cases hv : feat.Values.lookup (toLower other) with
        | none => simp [hv, Except.toOption]
        | some v => simp [hv, Except.toOption]

/-- Witness for C6 (amended) on concrete configs: unknown feature, a
successful case-insensitive-in-the-query lookup, and the equality of two
queries differing only in case. -/
theorem applyFeature_resolution_w :
    applyFeature cfgLowerLabel "usb_selection" "x"
        = .error (.unknownFeature "usb_selection")
      ∧ applyFeature cfgLowerLabel "input_source" "HDMI1" = .ok ("0x60", "0x11")
      ∧ (applyFeature cfgLowerLabel "input_source" "HDMI1").toOption
        = (applyFeature cfgLowerLabel "input_source" "hDmI1").toOption := by
  refine ⟨(applyFeature_resolution cfgLowerLabel "usb_selection" "x").1 (by decide),
    ((applyFeature_resolution cfgLowerLabel "input_source" "HDMI1").2.1
      ⟨"0x60", [("hdmi1", "0x11"), ("dp", "0x0f")]⟩ (by decide)).2 "0x11" (by decide),
    (applyFeature_resolution cfgLowerLabel "input_source" "HDMI1").2.2 "hDmI1"
      (by decide)⟩

/-! ### Preset sequencing (main.go 336–361) -/

/-- Embedding of the preset application loop (main.go 350–361): the
features of `order` are visited in turn; a feature the preset defines is
attempted, and a failed write is reported on stderr and the loop continues
with the next feature. `fails` abstracts whether the write for a given
feature fails; the result is the list of attempted `(feature, label)`
writes together with the features whose write was reported as failed. -/
def runOrder (fails : String → Bool) (preset : List (String × String)) :
    List String → List (String × String) × List String
  | [] => ([], [])
  | f :: rest =>
    match preset.lookup f with
    | some v =>
        let r := runOrder fails preset rest
        ((f, v) :: r.1, (if fails f then [f] else []) ++ r.2)
    | none => runOrder fails preset rest

/-- Embedding of the order selection and application in `main`
(main.go 336–361): `preset["pbp_mode"]` (empty string when absent) decides
the order; when it is not "off", an unconditional `pbp_mode = off` reset
write is issued before the loop. The result is the full list of issued
`(feature, label)` writes, in order. -/
def presetSequence (fails : String → Bool)
    (preset : List (String × String)) : List (String × String) :=
  let targetPbpMode := (preset.lookup "pbp_mode").getD ""
  if targetPbpMode = "off" then
    (runOrder fails preset ["pbp_mode", "input_source", "usb_selection"]).1
  else
    ("pbp_mode", "off") ::
      (runOrder fails preset
        ["input_source", "pbp_mode", "pbp_sub_input", "usb_selection"]).1

theorem runOrder_fst (fails : String → Bool) (preset : List (String × String)) :
    ∀ order : List String,
      (runOrder fails preset order).1
        = order.filterMap (fun f => (preset.lookup f).map (fun v => (f, v))) := by
  intro order
  induction order with
  | nil => rfl
  | cons f rest ih =>
      simp only [runOrder, List.filterMap_cons]
      cases preset.lookup f with
      | none => simpa using ih
      | some v => simpa using ih

theorem runOrder_snd (fails : String → Bool) (preset : List (String × String)) :
    ∀ order : List String,
      (runOrder fails preset order).2
        = order.filter (fun f => (preset.lookup f).isSome && fails f) := by
  intro order
  induction order with
  | nil => rfl
  | cons f rest ih =>
      simp only [runOrder, List.filter_cons]
      cases preset.lookup f with
      | none => simpa using ih
      | some v =>
          cases hf : fails f with
          | false => simpa [hf] using ih
          | true => simpa [hf] using ih

/-- **C1.** When the preset's `pbp_mode` label is "off" the sequencer
attempts writes exactly in the order `[pbp_mode, input_source,
usb_selection]`, keeping only features the preset defines; in every other
case (a non-"off" label, or `pbp_mode` absent) it first issues one
unconditional `pbp_mode = off` reset write and then attempts writes
exactly in the order `[input_source, pbp_mode, pbp_sub_input,
usb_selection]`, again keeping only features the preset defines. -/
theorem presetSequence_order (fails : String → Bool)
    (preset : List (String × String)) :
    (preset.lookup "pbp_mode" = some "off" →
      presetSequence fails preset
        = ["pbp_mode", "input_source", "usb_selection"].filterMap
            (fun f => (preset.lookup f).map (fun v => (f, v))))
    ∧ (preset.lookup "pbp_mode" ≠ some "off" →
      presetSequence fails preset
        = ("pbp_mode", "off") ::
            ["input_source", "pbp_mode", "pbp_sub_input",
              "usb_selection"].filterMap
              (fun f => (preset.lookup f).map (fun v => (f, v)))) := by
  constructor
  · intro h
    unfold presetSequence
    rw [h]
    simp only [Option.getD_some, if_pos rfl]
    exact runOrder_fst fails preset _
  · intro h
    unfold presetSequence
    have hne : (preset.lookup "pbp_mode").getD "" ≠ "off" := by
      cases hl : preset.lookup "pbp_mode" with
      | none => simp
      | some v =>
          simp only [Option.getD_some]
          intro hv
          exact h (by rw [hl, hv])
    rw [if_neg hne]
    rw [runOrder_fst fails preset _]

/-- Witness for C1: the "off" preset `{pbp_mode: off, input_source: hdmi1}`
and the PBP preset `{pbp_mode: on, input_source: dp, pbp_sub_input:
hdmi1}`, each with an always-succeeding write oracle. -/
theorem presetSequence_order_w :
    presetSequence (fun _ => false)
        [("pbp_mode", "off"), ("input_source", "hdmi1")]
      = [("pbp_mode", "off"), ("input_source", "hdmi1")]
    ∧ presetSequence (fun _ => false)
        [("pbp_mode", "on"), ("input_source", "dp"), ("pbp_sub_input", "hdmi1")]
      = [("pbp_mode", "off"), ("input_source", "dp"), ("pbp_mode", "on"),
          ("pbp_sub_input", "hdmi1")] := by
  constructor
  · rw [(presetSequence_order (fun _ => false)
      [("pbp_mode", "off"), ("input_source", "hdmi1")]).1 (by decide)]
    decide
  · rw [(presetSequence_order (fun _ => false)
      [("pbp_mode", "on"), ("input_source", "dp"),
        ("pbp_sub_input", "hdmi1")]).2 (by decide)]
    decide

/-- **C7.** The sequencer is best-effort: the list of attempted writes does
not depend on which writes fail — it is always exactly the defined features
of the chosen order — and a failed feature is merely recorded among the
reported failures. In particular the whole preset sequence is unchanged by
failures. -/
theorem presetSequence_best_effort (fails : String → Bool)
    (preset : List (String × String)) (order : List String) :
    (runOrder fails preset order).1
        = order.filterMap (fun f => (preset.lookup f).map (fun v => (f, v)))
      ∧ (runOrder fails preset order).1
        = (runOrder (fun _ => false) preset order).1
      ∧ (runOrder fails preset order).2
        = order.filter (fun f => (preset.lookup f).isSome && fails f)
      ∧ presetSequence fails preset = presetSequence (fun _ => false) preset := by
  refine ⟨runOrder_fst fails preset order, ?_, runOrder_snd fails preset order, ?_⟩
  · rw [runOrder_fst fails preset order, runOrder_fst (fun _ => false) preset order]
  · unfold presetSequence
    simp only [runOrder_fst fails preset, runOrder_fst (fun _ => false) preset]

/-! ### Config matching in discovery (main.go 221–228) -/

/-- Substring containment over lists, as `strings.Contains(s, sub)` and
`bytes.Contains(s, sub)` compute it: `sub` occurs contiguously in `s`
(every list contains the empty list). -/
def containsSub {α : Type} [BEq α] (sub : List α) : List α → Bool
  | [] => sub.isEmpty
  | a :: t => sub.isPrefixOf (a :: t) || containsSub sub t

/-- Embedding of the config-matching loop of `discoverDevices`
(main.go 221–227): the first config whose `Match`, uppercased, occurs as a
substring of the uppercased monitor name wins. -/
def matchConfig (name : String) (configs : List MonitorConfig) :
    Option MonitorConfig :=
  configs.find? (fun c => containsSub (toUpper c.Match).data (toUpper name).data)

/-- Embedding of the device construction in `discoverDevices`
(main.go 228): the bus, the identified name, and the matched config. -/
def bindDevice (bus name : String) (configs : List MonitorConfig) : Device :=
  ⟨bus, name, matchConfig name configs⟩

theorem containsSub_nil {α : Type} [BEq α] :
    ∀ s : List α, containsSub ([] : List α) s = true := by
  intro s
  cases s with
  | nil => rfl
  | cons a t => simp [containsSub, List.isPrefixOf]

/-- **C10.** An empty `match` substring matches every monitor name: for
every non-empty identified name, a config whose `match` is empty placed
first in the list is bound to the device, whatever the name is. -/
theorem matchConfig_empty_first (bus name : String) (c : MonitorConfig)
    (rest : List MonitorConfig) (_hname : name ≠ "") (hm : c.Match = "") :
    matchConfig name (c :: rest) = some c
      ∧ (bindDevice bus name (c :: rest)).Config = some c := by
  have hfind : matchConfig name (c :: rest) = some c := by
    unfold matchConfig
    apply List.find?_cons_of_pos
    rw [hm]
    exact containsSub_nil (toUpper name).data
  exact ⟨hfind, hfind⟩

/-- Witness for C10: an empty-match config placed before a non-matching one
binds to a discovered "DELL U4021QW". -/
theorem matchConfig_empty_first_w :
    matchConfig "DELL U4021QW"
        [⟨"any", "", [], []⟩, ⟨"other", "NOPE", [], []⟩] = some ⟨"any", "", [], []⟩
      ∧ (bindDevice "/dev/i2c-7" "DELL U4021QW"
          [⟨"any", "", [], []⟩, ⟨"other", "NOPE", [], []⟩]).Config
        = some ⟨"any", "", [], []⟩ :=
  matchConfig_empty_first "/dev/i2c-7" "DELL U4021QW" ⟨"any", "", [], []⟩
    [⟨"other", "NOPE", [], []⟩] (by decide) rfl

/-! ### EDID identification (`getMonitorName`, main.go 137–170) -/

/-- ASCII bytes of a string, for building EDID text and comparing names. -/
def ascii (s : String) : List Nat :=
  s.data.map Char.toNat

/-- The ASCII whitespace bytes `strings.TrimSpace` strips (the EDID text
here is plain ASCII, where Go's definition coincides with this one). -/
def isSpaceByte (b : Nat) : Bool :=
  b = 9 || b = 10 || b = 11 || b = 12 || b = 13 || b = 32

/-- Embedding of `strings.TrimSpace` on ASCII bytes. -/
def trimSpace (l : List Nat) : List Nat :=
  ((l.dropWhile isSpaceByte).reverse.dropWhile isSpaceByte).reverse

/-- One round of the descriptor scan in `getMonitorName` (main.go 154–160):
`for j := 54; j < 108; j += 18`, looking for the display-name tag
`00 00 00 FC` and, at the first hit, returning the trimmed text bytes
`edid[j+5 : j+18]`. The loop-variable recursion is paid for with a fuel
argument (structural, so that proofs can evaluate it); the loop itself
stops at the `j < 108` test. -/
def nameScanLoop (edid : List Nat) : Nat → Nat → Option (List Nat)
  | 0, _ => none
  | fuel + 1, j =>
    if j < 108 then
      if edid.getD j 0 = 0 ∧ edid.getD (j+1) 0 = 0 ∧ edid.getD (j+2) 0 = 0
          ∧ edid.getD (j+3) 0 = 0xfc then
        some (trimSpace ((edid.drop (j+5)).take 13))
      else nameScanLoop edid fuel (j + 18)
    else none

/-- The scan entered at `j = 54`. Starting from 54 and stepping by 18, the
`j < 108` test fails after at most three rounds, so a fuel of 128 never
runs out before the loop exits by itself. -/
def nameScanFrom (edid : List Nat) (j : Nat) : Option (List Nat) :=
  nameScanLoop edid 128 j

/-- Embedding of the pure part of `getMonitorName` (main.go 154–169): the
descriptor scan starting at offset 54, falling back — when it produced no
(or an all-blank) name — to the raw-byte substring heuristics over the
whole EDID block. -/
def getMonitorName (edid : List Nat) : List Nat :=
  let name := (nameScanFrom edid 54).getD []
  if name = [] then
    if containsSub (ascii "U4021QW") edid then ascii "Dell U4021QW"
    else if containsSub (ascii "DELL") edid then ascii "DELL Monitor"
    else []
  else name

/-- A 128-byte EDID block whose only display-name descriptor sits in the
fourth slot, at offset 108, with text "DELL U4021QW " (13 bytes). -/
def edid108 : List Nat :=
  List.replicate 108 0 ++ [0, 0, 0, 0xfc, 0] ++ ascii "DELL U4021QW " ++ [0, 0]

/-- The same block with the descriptor in the first slot, at offset 54. -/
def edid54 : List Nat :=
  List.replicate 54 0 ++ [0, 0, 0, 0xfc, 0] ++ ascii "DELL U4021QW "
    ++ List.replicate 56 0

/-- **C2 (code bug).** The loop `for j := 54; j < 108; j += 18` visits only
the slots 54, 72 and 90: on a 128-byte block whose name descriptor
(`00 00 00 FC`, text "DELL U4021QW ") sits at offset 108, the scan fails
even though that slot carries the tag and the claimed trimmed name, and the
function falls through to the substring heuristic, answering the fallback
spelling "Dell U4021QW" instead of the descriptor's "DELL U4021QW". A
descriptor in the first slot, at offset 54, is extracted as claimed. -/
theorem getMonitorName_misses_fourth_slot :
    edid108.length = 128
      ∧ edid108.getD 108 0 = 0 ∧ edid108.getD 109 0 = 0
      ∧ edid108.getD 110 0 = 0 ∧ edid108.getD 111 0 = 0xfc
      ∧ trimSpace ((edid108.drop 113).take 13) = ascii "DELL U4021QW"
      ∧ nameScanFrom edid108 54 = none
      ∧ getMonitorName edid108 = ascii "Dell U4021QW"
      ∧ ascii "Dell U4021QW" ≠ ascii "DELL U4021QW"
      ∧ getMonitorName edid54 = ascii "DELL U4021QW" := by
  set_option maxRecDepth 100000 in decide

/-! ### GET-reply parsing (`getVCP`, main.go 119–133) -/

/-- The marker condition of the scan loop (main.go 125): the reply byte at
offset `i` is the marker `0x02` and the byte at `i + 2` is the requested
VCP code. (With the 16-byte reply buffer and `i < n - 5 ≤ 11`, these two
reads are always in bounds.) -/
def markerAt (reply : List Nat) (vcp i : Nat) : Prop :=
  reply.getD i 0 = 0x02 ∧ reply.getD (i+2) 0 = vcp

instance (reply : List Nat) (vcp i : Nat) : Decidable (markerAt reply vcp i) := by
  unfold markerAt
  infer_instance

/-- Result of the marker-scan loop: a value extracted at a match, an
out-of-bounds buffer index (a Go runtime panic), or no match. -/
inductive ScanResult where
  | found : Nat → ScanResult
  | oob : Nat → ScanResult
  | nomatch : ScanResult
deriving Repr, DecidableEq

/-- Embedding of the marker-scan loop of `getVCP` (main.go 124–128):
`for i := 0; i < n-5; i++`; at a marker match the big-endian word
`reply[i+6] << 8 | reply[i+7]` is returned. The loop is driven by the fuel
`n - 5 - i`, so the loop runs exactly while `i < n - 5`. An index at or
past the end of the buffer is surfaced as `oob` with the first offending
index, in the order Go evaluates the accesses. -/
def scanFrom (reply : List Nat) (vcp : Nat) : Nat → Nat → ScanResult
  | 0, _ => .nomatch
  | fuel + 1, i =>
    if markerAt reply vcp i then
      if i + 7 < reply.length then
        .found (reply.getD (i+6) 0 * 256 + reply.getD (i+7) 0)
      else .oob (if i + 6 < reply.length then i + 7 else i + 6)
    else scanFrom reply vcp fuel (i + 1)

/-- Outcome of one read cycle of `getVCP`: an extracted value, a fall
through (`getVCP` would retry or fail), or a runtime panic at the given
buffer index. -/
inductive ReplyOutcome where
  | value : Nat → ReplyOutcome
  | nomatch : ReplyOutcome
  | panic : Nat → ReplyOutcome
deriving Repr, DecidableEq

/-- Embedding of one read cycle of `getVCP` (main.go 122–132): after a read
of `n` bytes into the 16-byte reply buffer, when `n ≥ 10`, the marker scan
runs over `0 ≤ i < n - 5`; if it finds nothing, a reply whose first byte is
`0x6E` yields the big-endian word at the fixed offsets 8 and 9. -/
def readCycle (reply : List Nat) (n vcp : Nat) : ReplyOutcome :=
  if 10 ≤ n then
    match scanFrom reply vcp (n - 5) 0 with
    | .found v => .value v
    | .oob k => .panic k
    | .nomatch =>
      if reply.getD 0 0 = 0x6e then
        .value (reply.getD 8 0 * 256 + reply.getD 9 0)
      else .nomatch
  else .nomatch

theorem scanFrom_found (reply : List Nat) (vcp : Nat) :
    ∀ (fuel i j : Nat), i ≤ j → j < i + fuel → markerAt reply vcp j →
      (∀ k, i ≤ k → k < j → ¬ markerAt reply vcp k) →
      j + 7 < reply.length →
      scanFrom reply vcp fuel i
        = .found (reply.getD (j+6) 0 * 256 + reply.getD (j+7) 0) := by
  intro fuel
  induction fuel with
  | zero => intro i j hij hlt; omega
  | succ fuel ih =>
      intro i j hij hlt hm hmin h7
      by_cases hi : markerAt reply vcp i
      · have hij' : i = j := by
          by_contra hne
          exact hmin i (le_refl i) (lt_of_le_of_ne hij hne) hi
        subst hij'
        simp only [scanFrom, if_pos hi, if_pos h7]
      · have hij' : i < j :=
          lt_of_le_of_ne hij (fun h => hi (h ▸ hm))
        simp only [scanFrom, if_neg hi]
        exact ih (i + 1) j hij' (by omega) hm
          (fun k hk1 hk2 => hmin k (by omega) hk2) h7

theorem scanFrom_nomatch (reply : List Nat) (vcp : Nat) :
    ∀ (fuel i : Nat), (∀ k, i ≤ k → k < i + fuel → ¬ markerAt reply vcp k) →
      scanFrom reply vcp fuel i = .nomatch := by
  intro fuel
  induction fuel with
  | zero => intro i _; rfl
  | succ fuel ih =>
      intro i hmin
      have hi : ¬ markerAt reply vcp i := hmin i (le_refl i) (by omega)
      simp only [scanFrom, if_neg hi]
      exact ih (i + 1) (fun k hk1 hk2 => hmin k (by omega) (by omega))

/-- The marker-layout reply a display may send: the standard frame
`[0x6E, 0x88, 0x02, rc, vcp, ty, mh, ml, vh, vl, …]`, whose marker sits at
offset 2 so the value offsets `2+6` and `2+7` are exactly 8 and 9. -/
def markerLayout (vcp vh vl : Nat) : List Nat :=
  [0x6e, 0x88, 0x02, 0, vcp, 0, 0, 0, vh, vl, 0, 0, 0, 0, 0, 0]

/-- The same payload framed without the `0x02` marker: only the leading
source-address byte `0x6E` identifies it, and the value again sits at the
fixed offsets 8 and 9. -/
def plainLayout (vcp vh vl : Nat) : List Nat :=
  [0x6e, 0x88, 0, 0, vcp, 0, 0, 0, vh, vl, 0, 0, 0, 0, 0, 0]

/-- **C4.** For a 16-byte reply buffer with `10 ≤ n ≤ 16` bytes read: a
first marker match at offset `j` in the scanned range (with its value word
inside the buffer) yields the big-endian word at `j+6`, `j+7`; the `0x6E`
fallback is consulted only when the whole scan fails, and then yields the
big-endian word at the fixed offsets 8 and 9; and the two tolerated
layouts of one and the same payload — marker at offset 2, or marker-less
with leading `0x6E` — yield the same extracted value. -/
theorem getVCP_reply_accepted (reply : List Nat) (n vcp j : Nat)
    (hlen : reply.length = 16) (hn10 : 10 ≤ n) (_hn16 : n ≤ 16) :
    (markerAt reply vcp j → j < n - 5 → j + 7 < 16 →
      (∀ k, k < j → ¬ markerAt reply vcp k) →
      readCycle reply n vcp
        = .value (reply.getD (j+6) 0 * 256 + reply.getD (j+7) 0))
    ∧ ((∀ k, k < n - 5 → ¬ markerAt reply vcp k) → reply.getD 0 0 = 0x6e →
      readCycle reply n vcp = .value (reply.getD 8 0 * 256 + reply.getD 9 0))
    ∧ ((∀ k, k < n - 5 → ¬ markerAt reply vcp k) → reply.getD 0 0 ≠ 0x6e →
      readCycle reply n vcp = .nomatch)
    ∧ (∀ vh vl : Nat, vcp ≠ 0x02 →
      readCycle (markerLayout vcp vh vl) 11 vcp = .value (vh * 256 + vl)
      ∧ readCycle (plainLayout vcp vh vl) 11 vcp = .value (vh * 256 + vl)) := by
  refine ⟨?_, ?_, ?_, ?_⟩
  · intro hm hj h7 hmin
    unfold readCycle
    rw [if_pos hn10,
      scanFrom_found reply vcp (n - 5) 0 j (Nat.zero_le j) (by omega) hm
        (fun k _ hk => hmin k hk) (by omega)]
  · intro hmin h6e
    unfold readCycle
    rw [if_pos hn10,
      scanFrom_nomatch reply vcp (n - 5) 0 (fun k _ hk => hmin k (by omega)),
      if_pos h6e]
  · intro hmin h6e
    unfold readCycle
    rw [if_pos hn10,
      scanFrom_nomatch reply vcp (n - 5) 0 (fun k _ hk => hmin k (by omega)),
      if_neg h6e]
  · intro vh vl hvcp
    constructor
    · have hm2 : markerAt (markerLayout vcp vh vl) vcp 2 := by
        constructor <;> rfl
      have hmin : ∀ k, k < 2 → ¬ markerAt (markerLayout vcp vh vl) vcp k := by
        intro k hk
        interval_cases k <;> simp [markerAt, markerLayout]
      unfold readCycle
      rw [if_pos (by omega),
        scanFrom_found (markerLayout vcp vh vl) vcp (11 - 5) 0 2 (by omega)
          (by omega) hm2 (fun k _ hk => hmin k hk) (by simp [markerLayout])]
      simp [markerLayout]
    · have hmin : ∀ k, k < 6 → ¬ markerAt (plainLayout vcp vh vl) vcp k := by
        intro k hk
        interval_cases k <;> simp [markerAt, plainLayout] <;> omega
      unfold readCycle
      rw [if_pos (by omega),
        scanFrom_nomatch (plainLayout vcp vh vl) vcp (11 - 5) 0
          (fun k _ hk => hmin k (by omega))]
      simp [plainLayout]

/-- Witness for C4 at a concrete frame: a marker reply for VCP `0x60`
carrying the value `0x0F11`, read as 11 bytes; all three applicable parts
of the theorem are exercised. -/
theorem getVCP_reply_accepted_w :
    readCycle (markerLayout 0x60 0x0F 0x11) 11 0x60 = .value 0x0F11
      ∧ readCycle (plainLayout 0x60 0x0F 0x11) 11 0x60 = .value 0x0F11
      ∧ readCycle (plainLayout 0x60 0x0F 0x11) 11 0x60
        = .value ((plainLayout 0x60 0x0F 0x11).getD 8 0 * 256
            + (plainLayout 0x60 0x0F 0x11).getD 9 0) := by
  refine ⟨?_, ?_, ?_⟩
  · have h := (getVCP_reply_accepted (markerLayout 0x60 0x0F 0x11) 11 0x60 2
      (by decide) (by decide) (by decide)).1
    rw [h (by decide) (by decide) (by decide) (by decide)]
    decide
  · have h := (getVCP_reply_accepted (plainLayout 0x60 0x0F 0x11) 11 0x60 0
      (by decide) (by decide) (by decide)).2.2.2 0x0F 0x11 (by decide)
    exact h.2
  · have h := (getVCP_reply_accepted (plainLayout 0x60 0x0F 0x11) 11 0x60 0
      (by decide) (by decide) (by decide)).2.1
    rw [h (by decide) (by decide)]

/-- A 16-byte reply whose first marker match sits at offset 10 (marker
`0x02` at index 10, VCP code `0x60` at index 12): the scan loop for
`n = 16` visits `i` up to 10 and then reads `reply[16]` — past the end of
the buffer. -/
def panicReply : List Nat :=
  [0, 0, 0, 0, 0, 0, 0, 0, 0, 0, 0x02, 0, 0x60, 0, 0, 0]

/-- **C9 (code bug).** The claimed bound fails at the top of the claimed
range: for a full 16-byte read (`n = 16`) the loop runs `i` up to
`n - 6 = 10`, where `i + 6 = 16` and `i + 7 = 17` lie outside the 16-byte
buffer. On `panicReply` the match at `i = 10` makes `getVCP` index
`reply[16]` — a Go runtime panic — instead of staying in bounds. -/
theorem getVCP_scan_out_of_bounds :
    panicReply.length = 16
      ∧ (10 ≤ 16 ∧ (16 : Nat) ≤ 16)
      ∧ markerAt panicReply 0x60 10
      ∧ readCycle panicReply 16 0x60 = .panic 16
      ∧ ¬ 16 < panicReply.length := by
  decide

end DellMonitor
